import Mathlib

/-!
Verification development for the `hlfun_auth_srv` authentication service.

The Rust sources (`src/state.rs`, `src/service.rs`, `src/request.rs`) are
shallowly embedded below:

* `DashMap` / assoc containers become association lists (`lookupA`,
  `updateA`, `insertA`) with first-match lookup, mirroring per-key
  get / get_mut / insert semantics.
* IPv4 addresses are `Nat` values below `2^32`; `ipnet::Ipv4Net` becomes
  `Subnet` (raw address plus prefix length, compared structurally exactly
  as the derived `PartialEq` on `Ipv4Net` does).
* The HS256 MAC of `jwt_simple` is modelled by the executable keyed hash
  `macSign`; signing stores the tag, verification recomputes and compares,
  which is the observable contract of the library.
* Fallible Rust paths return `Option`; a Rust panic (out-of-bounds index,
  `unwrap` on `None`, `todo!()`) is modelled by `none` in an outer
  `Option` layer, as documented at each definition.
-/

set_option autoImplicit false

/-- First-match lookup in an association list, mirroring `DashMap::get`. -/
def lookupA {κ α : Type} [DecidableEq κ] (l : List (κ × α)) (k : κ) : Option α :=
  match l with
  | [] => none
  | (k2, v) :: rest => if k2 = k then some v else lookupA rest k

/-- `DashMap::contains_key`. -/
def containsA {κ α : Type} [DecidableEq κ] (l : List (κ × α)) (k : κ) : Bool :=
  (lookupA l k).isSome

/-- In-place mutation of the first entry with the given key, mirroring a
write through `DashMap::get_mut`.  Absent keys are left untouched. -/
def updateA {κ α : Type} [DecidableEq κ] (l : List (κ × α)) (k : κ) (f : α → α) :
    List (κ × α) :=
  match l with
  | [] => []
  | (k2, v) :: rest =>
    if k2 = k then (k2, f v) :: rest else (k2, v) :: updateA rest k f

/-- `DashMap::insert`: replaces the value when the key is present,
otherwise adds a new entry. -/
def insertA {κ α : Type} [DecidableEq κ] (l : List (κ × α)) (k : κ) (v : α) :
    List (κ × α) :=
  if containsA l k then updateA l k (fun _ => v) else (k, v) :: l

theorem lookupA_updateA_self {κ α : Type} [DecidableEq κ]
    (l : List (κ × α)) (k : κ) (f : α → α) :
    lookupA (updateA l k f) k = (lookupA l k).map f := by
  induction l with
  | nil => simp [lookupA, updateA]
  | cons hd tl ih =>
    obtain ⟨k2, v⟩ := hd
    by_cases h : k2 = k <;> simp [lookupA, updateA, h, ih]

theorem lookupA_updateA_ne {κ α : Type} [DecidableEq κ]
    (l : List (κ × α)) (k k2 : κ) (f : α → α) (h : k2 ≠ k) :
    lookupA (updateA l k f) k2 = lookupA l k2 := by
  induction l with
  | nil => simp [lookupA, updateA]
  | cons hd tl ih =>
    obtain ⟨k3, v⟩ := hd
    by_cases h3 : k3 = k
    · subst h3
      simp [lookupA, updateA, h, Ne.symm h]
    · by_cases h4 : k3 = k2 <;> simp [lookupA, updateA, h3, h4, h, ih]

theorem updateA_const_self {κ α : Type} [DecidableEq κ]
    (l : List (κ × α)) (k : κ) (v : α) (h : lookupA l k = some v) :
    updateA l k (fun _ => v) = l := by
  induction l with
  | nil => simp [updateA]
  | cons hd tl ih =>
    obtain ⟨k2, w⟩ := hd
    by_cases h2 : k2 = k
    · subst h2
      simp [lookupA] at h
      simp [updateA, h]
    · simp [lookupA, h2] at h
      simp [updateA, h2, ih h]

/-- `ipnet::Ipv4Net`: raw (untruncated) network address plus prefix
length.  Equality is structural, exactly as the derived `PartialEq`. -/
structure Subnet where
  addr : Nat
  maskLen : Nat
  deriving DecidableEq

/-- `Ipv4Net::contains(&Ipv4Addr)`: the address shares the network's top
`maskLen` bits, i.e. both agree after division by `2 ^ (32 - maskLen)`. -/
def subnetContains (s : Subnet) (ip : Nat) : Bool :=
  ip / 2 ^ (32 - s.maskLen) = s.addr / 2 ^ (32 - s.maskLen)

/-- `Ipv4Addr::octets()[0]` of an address held as a `Nat` below `2^32`. -/
def firstOctet (ip : Nat) : Nat :=
  ip / 2 ^ 24

/-- The ban storage of `State`: `first_byte_banned_subnets` (shard lists
keyed by the first octet of the stored network address) and
`root_banned_subnets` (only ever read by `unban_subnet`; `ban_subnet`'s
root branch is commented out in the source). -/
structure BanState where
  firstByte : List (Nat × List Subnet)
  root : List Subnet
  deriving DecidableEq

/-- `State::is_ip_banned`: scan only the shard of the address's first
octet; the loop over `root_banned_subnets` is commented out. -/
def is_ip_banned (b : BanState) (ip : Nat) : Bool :=
  match lookupA b.firstByte (firstOctet ip) with
  | some subnets => subnets.any (fun s => subnetContains s ip)
  | none => false

/-- `State::ban_subnet`: the `mask < 8` root branch is commented out, so
every subnet goes to the shard of its first address octet; a duplicate
exact `(addr, maskLen)` pair is reported with `false`. -/
def ban_subnet (b : BanState) (network : Nat) (mask : Nat) : Bool × BanState :=
  let fb := firstOctet network
  let subnet : Subnet := ⟨network, mask⟩
  match lookupA b.firstByte fb with
  | some stored =>
    if subnet ∈ stored then (false, b)
    else (true, { b with firstByte := updateA b.firstByte fb (fun l => l ++ [subnet]) })
  | none => (true, { b with firstByte := (fb, [subnet]) :: b.firstByte })

/-- `State::unban_subnet`: for `mask < 8` it consults the root set (which
`ban_subnet` never populates); otherwise it removes the first exact match
from the shard and prunes every empty shard list. -/
def unban_subnet (b : BanState) (network : Nat) (mask : Nat) : Bool × BanState :=
  let subnet : Subnet := ⟨network, mask⟩
  if mask < 8 then
    if subnet ∈ b.root then (true, { b with root := b.root.erase subnet })
    else (false, b)
  else
    let fb := firstOctet network
    match lookupA b.firstByte fb with
    | none => (false, b)
    | some stored =>
      if subnet ∈ stored then
        (true,
          { b with
            firstByte :=
              (updateA b.firstByte fb (fun l => l.erase subnet)).filter
                (fun kv => !kv.2.isEmpty) })
      else (false, b)

/-- The exact pair is currently present in its shard. -/
def pairBanned (b : BanState) (network : Nat) (mask : Nat) : Bool :=
  match lookupA b.firstByte (firstOctet network) with
  | some stored => decide ((⟨network, mask⟩ : Subnet) ∈ stored)
  | none => false

/-- No shard list of the store is empty (true of every state reachable
from the empty store: `ban_subnet` only adds, `unban_subnet` prunes). -/
def noEmptyShards (b : BanState) : Bool :=
  b.firstByte.all (fun kv => !kv.2.isEmpty)

/-- `state.rs` `User` record, fields in source order. -/
structure User where
  login : String
  password : String
  name : String
  phone : String
  country : String
  is_admin : Bool
  is_banned : Bool
  nonce : String
  deriving DecidableEq

/-- Custom JWT claims (`Info` in `state.rs`): login plus nonce. -/
structure Info where
  login : String
  nonce : String
  deriving DecidableEq

/-- A signed token: claims plus MAC tag. -/
structure Token where
  info : Info
  sig : Nat
  deriving DecidableEq

/-- Model of the HS256 MAC of `jwt_simple`: an executable deterministic
keyed hash of the claims.  Verification recomputes it and compares. -/
def strHash (h : Nat) (s : String) : Nat :=
  s.toList.foldl (fun a c => (a * 131 + c.toNat + 1) % 1000000007) h

def macSign (key : Nat) (info : Info) : Nat :=
  strHash (strHash (key % 1000000007 + 17) info.login * 131 + 101) info.nonce

/-- The fixed symmetric key hard-coded (base64) in `State::new`. -/
def serverKey : Nat := 578437695752307201

/-- `HS256Key::authenticate`: sign the claims. -/
def keyAuthenticate (key : Nat) (info : Info) : Token :=
  ⟨info, macSign key info⟩

/-- `HS256Key::verify_token`: recompute the MAC and compare. -/
def verifyToken (key : Nat) (t : Token) : Option Info :=
  if t.sig = macSign key t.info then some t.info else none

/-- The shared `State` of `state.rs`: user map, country prefix index,
banned-subnet store. -/
structure ServerState where
  users : List (String × User)
  countryPrefixes : List (String × List Subnet)
  banned : BanState
  deriving DecidableEq

/-- `State::is_country_ip`: geofence test of a single address against a
country's prefix set; an unknown country fails. -/
def is_country_ip (geo : List (String × List Subnet)) (country : String) (ip : Nat) :
    Bool :=
  match lookupA geo country with
  | none => false
  | some range => range.any (fun s => subnetContains s ip)

/-- `State::authenticate` (`state.rs` lines 82-121): password and ban
checks, then the nonce stamp, then the geofence check, then signing. -/
def authenticate (st : ServerState) (login password nonce : String) (ip : Nat) :
    Option Token × ServerState :=
  match lookupA st.users login with
  | none => (none, st)
  | some user =>
    if user.password ≠ password then (none, st)
    else if user.is_banned then (none, st)
    else
      let st' := { st with users := updateA st.users login (fun u => { u with nonce := nonce }) }
      if is_country_ip st.countryPrefixes user.country ip then
        (some (keyAuthenticate serverKey ⟨user.login, nonce⟩), st')
      else (none, st')

/-- `State::create_user`: insert a fresh record, `is_admin = false`,
`is_banned = false`, empty nonce. -/
def create_user (users : List (String × User))
    (login password name phone country : String) : List (String × User) :=
  insertA users login ⟨login, password, name, phone, country, false, false, ""⟩

/-- `State::is_user_exists`. -/
def is_user_exists (users : List (String × User)) (login : String) : Bool :=
  containsA users login

/-- `State::is_prop_admin_cred`: admin flag plus geofence. -/
def is_prop_admin_cred (st : ServerState) (login : String) (ip : Nat) : Bool :=
  match lookupA st.users login with
  | none => false
  | some usr =>
    if !usr.is_admin then false
    else is_country_ip st.countryPrefixes usr.country ip

/-- `State::get_user`: ban check, then geofence, then the serialized
record (serialization itself is out of model; the record stands for it). -/
def get_user (st : ServerState) (login : String) (ip : Nat) : Option User :=
  match lookupA st.users login with
  | none => none
  | some rec1 =>
    if rec1.is_banned then none
    else if is_country_ip st.countryPrefixes rec1.country ip then some rec1
    else none

/-- `State::is_proper_country` (`state.rs` lines 185-190), transcribed
faithfully: the result of `is_country_ip` is computed and then DISCARDED
(the source line lacks the `?` operator), so the function returns
`some ()` whenever the login exists. -/
def is_proper_country (st : ServerState) (login : String) (ip : Nat) : Option Unit :=
  match lookupA st.users login with
  | none => none
  | some usr =>
    let _discarded := is_country_ip st.countryPrefixes usr.country ip
    some ()

/-- `State::edit_user`: outer `none` models the panic of the
`.unwrap()` on a missing login; inner `none` is the banned-account
rejection.  Field writes follow source order. -/
def edit_user (users : List (String × User)) (login : String)
    (name : Option String) (password : Option String) (phone : Option String)
    (is_admin : Option Bool) (country : Option String) :
    Option (Option Unit × List (String × User)) :=
  match lookupA users login with
  | none => none
  | some usr =>
    if usr.is_banned then some (none, users)
    else
      let u1 := match is_admin with
        | some b => if usr.is_admin then { usr with is_admin := b } else usr
        | none => usr
      let u2 := match country with
        | some c => { u1 with country := c }
        | none => u1
      let u3 := match password with
        | some p => { u2 with password := p }
        | none => u2
      let u4 := match name with
        | some n => { u3 with name := n }
        | none => u3
      let u5 := match phone with
        | some p => { u4 with phone := p }
        | none => u4
      some (some (), updateA users login (fun _ => u5))

/-- `State::get_user_login`: verify the token, then require the embedded
login to still exist. -/
def get_user_login (st : ServerState) (t : Token) : Option String :=
  match verifyToken serverKey t with
  | none => none
  | some claims =>
    if containsA st.users claims.login then some claims.login else none

/-- `State::ban_user`: `none` for an unknown login, `some changed`
otherwise. -/
def ban_user (users : List (String × User)) (login : String) :
    Option (Bool × List (String × User)) :=
  match lookupA users login with
  | none => none
  | some rec1 =>
    if rec1.is_banned then some (false, users)
    else some (true, updateA users login (fun u => { u with is_banned := true }))

/-- `State::unban_user`. -/
def unban_user (users : List (String × User)) (login : String) :
    Option (Bool × List (String × User)) :=
  match lookupA users login with
  | none => none
  | some rec1 =>
    if !rec1.is_banned then some (false, users)
    else some (true, updateA users login (fun u => { u with is_banned := false }))

/-- Decimal digit value of a character, if it is a digit. -/
def digitVal (c : Char) : Option Nat :=
  if 48 ≤ c.toNat ∧ c.toNat ≤ 57 then some (c.toNat - 48) else none

/-- Value of a non-empty digit string (fails on any non-digit). -/
def digitsVal (l : List Char) (acc : Nat) : Option Nat :=
  match l with
  | [] => some acc
  | c :: rest =>
    match digitVal c with
    | some d => digitsVal rest (acc * 10 + d)
    | none => none

/-- `str::parse::<u8>`: an optional leading plus sign, then at least one
digit, value at most 255. -/
def parseU8 (s : String) : Option Nat :=
  match s.toList with
  | [] => none
  | c :: rest =>
    let digits := if c.toNat = 43 then rest else c :: rest
    match digits with
    | [] => none
    | _ =>
      match digitsVal digits 0 with
      | some v => if v ≤ 255 then some v else none
      | none => none

/-- One dotted-quad octet as accepted by `Ipv4Addr::from_str`: digits
only, no leading zero (except the single digit 0), at most 255. -/
def parseOctet (l : List Char) : Option Nat :=
  match l with
  | [] => none
  | [c] => digitVal c
  | c :: rest =>
    if c.toNat = 48 then none
    else
      match digitVal c with
      | none => none
      | some d =>
        match digitsVal rest d with
        | some v => if v ≤ 255 then some v else none
        | none => none

/-- Split a character list at every occurrence of the separator,
keeping empty pieces, as `str::split` does. -/
def splitAux (sep : Char) (l : List Char) (cur : List Char) : List (List Char) :=
  match l with
  | [] => [cur]
  | c :: rest =>
    if c = sep then cur :: splitAux sep rest []
    else splitAux sep rest (cur ++ [c])

/-- `str::split(sep)` over a string, collected to a list. -/
def splitChar (sep : Char) (s : String) : List String :=
  (splitAux sep s.toList []).map (fun cs => String.mk cs)

def slashChar : Char := Char.ofNat 47

def dotChar : Char := Char.ofNat 46

/-- `Ipv4Addr::from_str`: exactly four octets separated by dots. -/
def parseIpv4 (s : String) : Option Nat :=
  match splitChar dotChar s with
  | [a, b, c, d] =>
    match parseOctet a.toList, parseOctet b.toList,
        parseOctet c.toList, parseOctet d.toList with
    | some x, some y, some z, some w =>
      some (x * 2 ^ 24 + y * 2 ^ 16 + z * 2 ^ 8 + w)
    | _, _, _, _ => none
  | _ => none

/-- `http::Method`, restricted to the constructors the router looks at
plus a catch-all. -/
inductive Method where
  | get
  | post
  | put
  | delete
  | patch
  | other
  deriving DecidableEq

/-- `request.rs` `Handler`: the closed set of route kinds. -/
inductive Handler where
  | auth
  | getUser
  | registerUser
  | editUser
  | blacklistUser (user : String)
  | unblacklistUser (user : String)
  | blacklistSubnet (subnet : String) (mask : Nat)
  | unblacklistSubnet (subnet : String) (mask : Nat)
  deriving DecidableEq

/-- The body of `Handler::new` after the first `split('/')` element has
been consumed: sequential iterator steps transcribed from `request.rs`
lines 24-99 (the `?`-returns become `none` arms). -/
def handlerSegs (method : Method) (l : List String) : Option Handler :=
  match l with
  | [] => none
  | first_part :: rest =>
    match first_part with
    | "auth" =>
      if method = Method.post then
        match rest with
        | [] => some Handler.auth
        | _ => none
      else none
    | "user" =>
      match rest with
      | [] =>
        match method with
        | Method.put => some Handler.registerUser
        | Method.get => some Handler.getUser
        | Method.patch => some Handler.editUser
        | _ => none
      | _ => none
    | "blacklist" =>
      match rest with
      | [] => none
      | second_part :: rest2 =>
        match second_part with
        | "subnet" =>
          match rest2 with
          | [] => none
          | ip :: rest3 =>
            match rest3 with
            | [] => none
            | maskStr :: rest4 =>
              match parseU8 maskStr with
              | none => none
              | some mask =>
                match rest4 with
                | [] =>
                  match method with
                  | Method.put => some (Handler.blacklistSubnet ip mask)
                  | Method.delete => some (Handler.unblacklistSubnet ip mask)
                  | _ => none
                | _ => none
        | "user" =>
          match rest2 with
          | [] => none
          | user :: rest3 =>
            match rest3 with
            | [] =>
              match method with
              | Method.put => some (Handler.blacklistUser user)
              | Method.delete => some (Handler.unblacklistUser user)
              | _ => none
            | _ => none
        | _ => none
    | _ => none

/-- `Handler::new`: split the URL on `/`, discard the first element
(always present for `String.splitOn`), then run the sequential match. -/
def Handler.new (method : Method) (url : String) : Option Handler :=
  match splitChar slashChar url with
  | [] => none
  | _ :: rest => handlerSegs method rest

/-- The routing table of the specification, stated over the segment list
after the leading element is discarded: one row per recognized shape,
everything else none. -/
def routeTableSegs (method : Method) (segs : List String) : Option Handler :=
  match segs, method with
  | ["auth"], Method.post => some Handler.auth
  | ["user"], Method.get => some Handler.getUser
  | ["user"], Method.put => some Handler.registerUser
  | ["user"], Method.patch => some Handler.editUser
  | ["blacklist", "user", login], Method.put => some (Handler.blacklistUser login)
  | ["blacklist", "user", login], Method.delete => some (Handler.unblacklistUser login)
  | ["blacklist", "subnet", addrStr, maskStr], Method.put =>
    (parseU8 maskStr).map (fun mask => Handler.blacklistSubnet addrStr mask)
  | ["blacklist", "subnet", addrStr, maskStr], Method.delete =>
    (parseU8 maskStr).map (fun mask => Handler.unblacklistSubnet addrStr mask)
  | _, _ => none

/-- The specification's route table as a function of the full URL: split
on `/`, discard the first segment, match the table. -/
def routeTable (method : Method) (url : String) : Option Handler :=
  routeTableSegs method ((splitChar slashChar url).drop 1)

theorem handlerSegs_eq_routeTableSegs (m : Method) (l : List String) :
    handlerSegs m l = routeTableSegs m l := by
  rcases l with _ | ⟨s1, _ | ⟨s2, _ | ⟨s3, _ | ⟨s4, _ | ⟨s5, rest⟩⟩⟩⟩⟩ <;>
    cases m <;>
    simp only [handlerSegs, routeTableSegs] <;>
    first
      | rfl
      | (repeat' (split <;> try rfl)) <;> simp_all

/-- `request.rs` `AuthRequest`. -/
structure AuthRequest where
  login : String
  password : String
  nonce : String
  deriving DecidableEq

/-- `request.rs` `RegisterUserRequest`. -/
structure RegisterUserRequest where
  login : String
  password : String
  phone : String
  country : String
  name : String
  deriving DecidableEq

/-- `request.rs` `EditUserRequest` (all fields optional). -/
structure EditUserRequest where
  name : Option String
  password : Option String
  phone : Option String
  deriving DecidableEq

/-- HTTP status codes used by `service.rs`. -/
inductive Status where
  | ok
  | created
  | accepted
  | noContent
  | badRequest
  | forbidden
  | notFound
  | conflict
  deriving DecidableEq

/-- One parsed request as it stands at the dispatch point of
`ConnectionProcessor::process` (after header and body reading):
the resolved route, the raw `x-forwarded-for` value, the bearer token
(already through the JWT-string abstraction), and the JSON-decoded
bodies (`none` models a serde parse failure). -/
structure ParsedRequest where
  handler : Option Handler
  ipHeader : Option String
  token : Option Token
  authBody : Option AuthRequest
  registerBody : Option RegisterUserRequest
  editBody : Option EditUserRequest

/-- The token-guarded tail of the dispatch match (`service.rs` lines
243-353).  Outer `none` models a panic: the `todo!()` arms for `Auth`
and `RegisterUser` (unreachable from `dispatch`).  The service calls
`edit_user` with no admin-flag and no country argument. -/
def dispatchHandler (st : ServerState) (h : Handler) (r : ParsedRequest)
    (ip : Nat) (login : String) : Option (Status × ServerState) :=
  match h with
  | Handler.auth => none
  | Handler.registerUser => none
  | Handler.getUser =>
    match get_user st login ip with
    | none => some (Status.forbidden, st)
    | some _user_str => some (Status.ok, st)
  | Handler.editUser =>
    match r.editBody with
    | none => some (Status.badRequest, st)
    | some req =>
      match edit_user st.users login req.name req.password req.phone none none with
      | none => none
      | some (none, _) => some (Status.forbidden, st)
      | some (some _, users2) => some (Status.accepted, { st with users := users2 })
  | Handler.blacklistUser user =>
    if !is_prop_admin_cred st login ip then some (Status.forbidden, st)
    else
      match ban_user st.users user with
      | none => some (Status.notFound, st)
      | some (is_blacklisted_now, users2) =>
        if is_blacklisted_now then some (Status.created, { st with users := users2 })
        else some (Status.conflict, { st with users := users2 })
  | Handler.unblacklistUser user =>
    if !is_prop_admin_cred st login ip then some (Status.forbidden, st)
    else
      match unban_user st.users user with
      | none => some (Status.notFound, st)
      | some (is_unblacklisted_now, users2) =>
        if is_unblacklisted_now then some (Status.noContent, { st with users := users2 })
        else some (Status.notFound, { st with users := users2 })
  | Handler.blacklistSubnet subnet mask =>
    if !is_prop_admin_cred st login ip then some (Status.forbidden, st)
    else
      match parseIpv4 subnet with
      | none => some (Status.badRequest, st)
      | some snet =>
        if mask > 32 then some (Status.badRequest, st)
        else
          match ban_subnet st.banned snet mask with
          | (changed, banned2) =>
            if changed then some (Status.created, { st with banned := banned2 })
            else some (Status.conflict, { st with banned := banned2 })
  | Handler.unblacklistSubnet subnet mask =>
    if !is_prop_admin_cred st login ip then some (Status.forbidden, st)
    else
      match parseIpv4 subnet with
      | none => some (Status.badRequest, st)
      | some snet =>
        if mask > 32 then some (Status.badRequest, st)
        else
          match unban_subnet st.banned snet mask with
          | (changed, banned2) =>
            if changed then some (Status.noContent, { st with banned := banned2 })
            else some (Status.conflict, { st with banned := banned2 })

/-- The bearer-token gate (`service.rs` lines 226-241): absent token is
forbidden, an unverifiable token is answered with `write_bad_request`,
then the (broken, see `is_proper_country`) country gate. -/
def dispatchToken (st : ServerState) (h : Handler) (r : ParsedRequest) (ip : Nat) :
    Option (Status × ServerState) :=
  match r.token with
  | none => some (Status.forbidden, st)
  | some tok =>
    match get_user_login st tok with
    | none => some (Status.badRequest, st)
    | some login =>
      match is_proper_country st login ip with
      | none => some (Status.forbidden, st)
      | some _ => dispatchHandler st h r ip login

/-- One dispatch step of `ConnectionProcessor::process` (`service.rs`
lines 148-353), from the parsed request to the response status and the
state after the step.  `none` models a panic inside the step. -/
def dispatch (st : ServerState) (r : ParsedRequest) : Option (Status × ServerState) :=
  match r.handler with
  | none => some (Status.notFound, st)
  | some handler =>
    match r.ipHeader with
    | none => some (Status.forbidden, st)
    | some ipStr =>
      match parseIpv4 ipStr with
      | none => some (Status.forbidden, st)
      | some ip =>
        if is_ip_banned st.banned ip then some (Status.forbidden, st)
        else
          match handler with
          | Handler.auth =>
            match r.authBody with
            | none => some (Status.badRequest, st)
            | some request =>
              match authenticate st request.login request.password request.nonce ip with
              | (some _token, st2) => some (Status.ok, st2)
              | (none, st2) => some (Status.forbidden, st2)
          | Handler.registerUser =>
            match r.registerBody with
            | none => some (Status.badRequest, st)
            | some request =>
              if is_user_exists st.users request.login then some (Status.conflict, st)
              else
                some (Status.created,
                  { st with
                    users := create_user st.users request.login request.password
                      request.name request.phone request.country })
          | h => dispatchToken st h r ip

/-- `u8::to_ascii_lowercase`. -/
def asciiLower (c : Nat) : Nat :=
  if 65 ≤ c ∧ c ≤ 90 then c + 32 else c

/-- `StackLowerCaseStr::from_str` (`service.rs` lines 420-430): the write
loop runs over every byte of the input, but the buffer holds 32 bytes;
`none` models the out-of-bounds panic at `buffer[32]`. -/
def stackWriteLoop (buffer : List Nat) (idx : Nat) (bytes : List Nat) :
    Option (List Nat) :=
  match bytes with
  | [] => some buffer
  | c :: rest =>
    if idx < buffer.length then
      stackWriteLoop (buffer.set idx (asciiLower c)) (idx + 1) rest
    else none

/-- `StackLowerCaseStr::from_str` followed by `as_str`: the folded name,
truncated to `len = min(input length, 32)`; `none` is the panic. -/
def stackLowerCaseStr (bytes : List Nat) : Option (List Nat) :=
  let len := if bytes.length > 32 then 32 else bytes.length
  match stackWriteLoop (List.replicate 32 0) 0 bytes with
  | none => none
  | some buffer => some (buffer.take len)

theorem updateA_updateA {κ α : Type} [DecidableEq κ]
    (l : List (κ × α)) (k : κ) (f g : α → α) :
    updateA (updateA l k f) k g = updateA l k (fun v => g (f v)) := by
  induction l with
  | nil => simp [updateA]
  | cons hd tl ih =>
    obtain ⟨k2, v⟩ := hd
    by_cases h : k2 = k <;> simp [updateA, h, ih]

theorem updateA_id_of {κ α : Type} [DecidableEq κ]
    (l : List (κ × α)) (k : κ) (f : α → α) (v : α)
    (h : lookupA l k = some v) (hf : f v = v) :
    updateA l k f = l := by
  induction l with
  | nil => simp [updateA]
  | cons hd tl ih =>
    obtain ⟨k2, w⟩ := hd
    by_cases h2 : k2 = k
    · subst h2
      simp [lookupA] at h
      subst h
      simp [updateA, hf]
    · simp [lookupA, h2] at h
      simp [updateA, h2, ih h]

theorem mem_of_lookupA {κ α : Type} [DecidableEq κ]
    (l : List (κ × α)) (k : κ) (v : α) (h : lookupA l k = some v) :
    (k, v) ∈ l := by
  induction l with
  | nil => simp [lookupA] at h
  | cons hd tl ih =>
    obtain ⟨k2, w⟩ := hd
    by_cases h2 : k2 = k
    · subst h2
      simp [lookupA] at h
      simp [h]
    · simp [lookupA, h2] at h
      simp [ih h]

theorem filter_of_all {α : Type} (l : List α) (p : α → Bool)
    (h : l.all p = true) : l.filter p = l := by
  induction l with
  | nil => simp
  | cons hd tl ih =>
    simp only [List.all_cons, Bool.and_eq_true] at h
    simp [List.filter_cons, h.1, ih h.2]

/-- C2: a header name longer than 32 bytes makes the case-folding loop
index past the fixed 32-byte buffer: the model returns `none` (panic),
while names within the bound fold correctly (here the bytes of
`X-API-Key` fold to those of `x-api-key`). -/
theorem header_fold_overflow_panics :
    stackLowerCaseStr (List.replicate 33 65) = none ∧
    stackLowerCaseStr [88, 45, 65, 80, 73, 45, 75, 101, 121] =
      some [120, 45, 97, 112, 105, 45, 107, 101, 121] := by decide

/-- C6 counterexample: the router accepts `PUT /blacklist/user/`
(trailing empty segment bound as an empty login) and `POST a/auth`
(the router discards whatever precedes the first slash), both of which
the claim says must yield no route. -/
theorem router_accepts_offtable_inputs :
    Handler.new Method.put ("/blacklist/user/") = some (Handler.blacklistUser ("")) ∧
    Handler.new Method.post ("a/auth") = some Handler.auth := by decide

/-- C6 (amended): the router equals the table of §4.2 read over the
URL's `/`-segments with the first segment discarded unconditionally,
with `{login}` and `{addr}` matching any (possibly empty) segment and
`{mask}` any `u8` numeral; every input not matching a row yields none. -/
theorem router_eq_route_table (m : Method) (url : String) :
    Handler.new m url = routeTable m url := by
  unfold Handler.new routeTable
  cases hsp : splitChar slashChar url with
  | nil => rfl
  | cons hd tl =>
    simp [handlerSegs_eq_routeTableSegs]

/-- C3 counterexample: banning `10.0.0.0/4` succeeds and stores the
subnet in the shard of octet 10, but unbanning the identical pair takes
the `mask < 8` root-set branch, finds nothing, returns false, and the
address `10.0.0.0` is still reported banned afterwards. -/
theorem ban_unban_short_mask_not_restored :
    (ban_subnet ⟨[], []⟩ 167772160 4).1 = true ∧
    (unban_subnet (ban_subnet ⟨[], []⟩ 167772160 4).2 167772160 4).1 = false ∧
    is_ip_banned (unban_subnet (ban_subnet ⟨[], []⟩ 167772160 4).2 167772160 4).2
      167772160 = true := by decide

/-- C3 (amended): banning an already-banned identical pair returns false
with no change; unbanning a pair present in neither the shard nor the
root set returns false with no change; and for prefix lengths of at
least 8 (shorter prefixes hit the dead root-set branch shown in the
counterexample), banning a not-yet-banned pair and then unbanning it
returns the store to exactly its previous state, so no address is
reported banned on account of that pair. -/
theorem ban_unban_subnet_roundtrip (b : BanState) (network mask : Nat) :
    (pairBanned b network mask = true → ban_subnet b network mask = (false, b)) ∧
    (pairBanned b network mask = false →
      (⟨network, mask⟩ : Subnet) ∉ b.root →
      unban_subnet b network mask = (false, b)) ∧
    (8 ≤ mask → pairBanned b network mask = false → noEmptyShards b = true →
      (ban_subnet b network mask).1 = true ∧
      (unban_subnet (ban_subnet b network mask).2 network mask).1 = true ∧
      (unban_subnet (ban_subnet b network mask).2 network mask).2 = b) := by
  refine ⟨?_, ?_, ?_⟩
  · intro hb
    unfold pairBanned at hb
    unfold ban_subnet
    cases hl : lookupA b.firstByte (firstOctet network) with
    | none => rw [hl] at hb; simp at hb
    | some stored =>
      rw [hl] at hb
      simp only [decide_eq_true_eq] at hb
      simp [hl, hb]
  · intro hb hroot
    unfold pairBanned at hb
    unfold unban_subnet
    by_cases hm : mask < 8
    · simp [hm, hroot]
    · simp only [hm, if_false]
      cases hl : lookupA b.firstByte (firstOctet network) with
      | none => simp
      | some stored =>
        rw [hl] at hb
        have hnb : (⟨network, mask⟩ : Subnet) ∉ stored := by
          intro hmem
          simp [hmem] at hb
        simp [hnb]
  · intro hm hb hne
    have hm8 : ¬ mask < 8 := by omega
    have hfil : b.firstByte.filter (fun kv => !kv.2.isEmpty) = b.firstByte :=
      filter_of_all b.firstByte _ hne
    unfold pairBanned at hb
    unfold ban_subnet
    cases hl : lookupA b.firstByte (firstOctet network) with
    | none =>
      simp only [hl]
      refine ⟨by trivial, ?_⟩
      unfold unban_subnet
      simp only [hm8, if_false]
      have hl2 : lookupA ((firstOctet network, [(⟨network, mask⟩ : Subnet)]) ::
          b.firstByte) (firstOctet network) = some [⟨network, mask⟩] := by
        simp [lookupA]
      simp only [hl2]
      simp only [List.mem_singleton, if_pos rfl]
      refine ⟨by trivial, ?_⟩
      simp only [updateA, if_pos rfl]
      simp only [List.erase_cons_head]
      have hstep : (((firstOctet network, ([] : List Subnet)) :: b.firstByte).filter
          (fun kv => !kv.2.isEmpty)) = b.firstByte := hfil
      simp [hstep]
    | some stored =>
      rw [hl] at hb
      have hbm : (⟨network, mask⟩ : Subnet) ∉ stored := by
        intro hmem
        simp [hmem] at hb
      simp only [hl, if_neg hbm]
      refine ⟨by trivial, ?_⟩
      unfold unban_subnet
      simp only [hm8, if_false]
      have hl2 : lookupA (updateA b.firstByte (firstOctet network)
          (fun l => l ++ [(⟨network, mask⟩ : Subnet)])) (firstOctet network) =
          some (stored ++ [⟨network, mask⟩]) := by
        rw [lookupA_updateA_self, hl]; rfl
      simp only [hl2]
      have hmem2 : (⟨network, mask⟩ : Subnet) ∈ stored ++ [⟨network, mask⟩] := by
        simp
      simp only [if_pos hmem2]
      refine ⟨by trivial, ?_⟩
      have herase : (stored ++ [(⟨network, mask⟩ : Subnet)]).erase ⟨network, mask⟩ =
          stored := by
        rw [List.erase_append_right _ hbm]
        simp
      have hupd : updateA (updateA b.firstByte (firstOctet network)
          (fun l => l ++ [(⟨network, mask⟩ : Subnet)])) (firstOctet network)
          (fun l => l.erase ⟨network, mask⟩) = b.firstByte := by
        rw [updateA_updateA]
        exact updateA_id_of _ _ _ stored hl herase
      rw [hupd]
      simp [hfil]

/-- Witness for the round-trip theorem at concrete inputs: an
already-banned pair reports false unchanged; a never-banned pair unbans
to false unchanged; banning then unbanning `20.0.0.0/8` on a store that
already holds `1.0.0.0/32` restores the store exactly. -/
theorem ban_unban_subnet_roundtrip_w :
    ban_subnet ⟨[(1, [⟨16777216, 32⟩])], []⟩ 16777216 32 =
      (false, ⟨[(1, [⟨16777216, 32⟩])], []⟩) ∧
    unban_subnet ⟨[(1, [⟨16777216, 32⟩])], []⟩ 33554432 9 =
      (false, ⟨[(1, [⟨16777216, 32⟩])], []⟩) ∧
    (unban_subnet (ban_subnet ⟨[(1, [⟨16777216, 32⟩])], []⟩ 335544320 8).2
      335544320 8).2 = ⟨[(1, [⟨16777216, 32⟩])], []⟩ :=
  ⟨(ban_unban_subnet_roundtrip ⟨[(1, [⟨16777216, 32⟩])], []⟩ 16777216 32).1
      (by decide),
    (ban_unban_subnet_roundtrip ⟨[(1, [⟨16777216, 32⟩])], []⟩ 33554432 9).2.1
      (by decide) (by decide),
    ((ban_unban_subnet_roundtrip ⟨[(1, [⟨16777216, 32⟩])], []⟩ 335544320 8).2.2
      (by decide) (by decide) (by decide)).2.2⟩

/-- Every stored subnet sits in the shard of its first address octet and
has a prefix length between 8 and 32 — the invariant maintained by
`ban_subnet` restricted to prefix lengths of at least 8. -/
def wfBan (b : BanState) : Bool :=
  b.firstByte.all (fun kv => kv.2.all (fun s =>
    decide (firstOctet s.addr = kv.1 ∧ 8 ≤ s.maskLen ∧ s.maskLen ≤ 32)))

theorem wfBan_entry (b : BanState) (k : Nat) (stored : List Subnet) (s : Subnet)
    (hwf : wfBan b = true) (hl : lookupA b.firstByte k = some stored)
    (hs : s ∈ stored) :
    firstOctet s.addr = k ∧ 8 ≤ s.maskLen ∧ s.maskLen ≤ 32 := by
  have hmem := mem_of_lookupA _ _ _ hl
  unfold wfBan at hwf
  rw [List.all_eq_true] at hwf
  have h2 := hwf _ hmem
  rw [List.all_eq_true] at h2
  simpa using h2 s hs

theorem firstOctet_eq_of_contains (s : Subnet) (a : Nat) (h8 : 8 ≤ s.maskLen)
    (h32 : s.maskLen ≤ 32) (hc : subnetContains s a = true) :
    firstOctet a = firstOctet s.addr := by
  unfold subnetContains at hc
  simp only [decide_eq_true_eq] at hc
  unfold firstOctet
  have h24 : (2 : Nat) ^ 24 = 2 ^ (32 - s.maskLen) * 2 ^ (s.maskLen - 8) := by
    rw [← pow_add]
    congr 1
    omega
  rw [h24, ← Nat.div_div_eq_div_mul, ← Nat.div_div_eq_div_mul, hc]

theorem all_updateA {κ α : Type} [DecidableEq κ] (l : List (κ × α)) (k : κ)
    (f : α → α) (p : κ × α → Bool) (hall : l.all p = true)
    (hf : ∀ v, p (k, v) = true → p (k, f v) = true) :
    (updateA l k f).all p = true := by
  induction l with
  | nil => simp [updateA]
  | cons hd tl ih =>
    obtain ⟨k2, v⟩ := hd
    simp only [List.all_cons, Bool.and_eq_true] at hall
    by_cases h : k2 = k
    · subst h
      simp only [updateA, if_true, eq_self_iff_true, List.all_cons, Bool.and_eq_true]
      exact ⟨hf v hall.1, hall.2⟩
    · simp only [updateA, if_neg h, List.all_cons, Bool.and_eq_true]
      exact ⟨hall.1, ih hall.2⟩

theorem all_of_sub {α : Type} (l l2 : List α) (p : α → Bool)
    (h : l.all p = true) (hsub : ∀ a, a ∈ l2 → a ∈ l) : l2.all p = true := by
  rw [List.all_eq_true] at h ⊢
  intro a ha
  exact h a (hsub a ha)

/-- C4 counterexample: with `10.0.0.0/4` banned, the address `11.0.0.0`
is contained in the banned subnet yet `is_ip_banned` reports false,
because only the shard of first octet 11 is consulted and the subnet
was stored under octet 10. -/
theorem short_mask_ban_not_reported :
    subnetContains ⟨167772160, 4⟩ 184549376 = true ∧
    is_ip_banned (ban_subnet ⟨[], []⟩ 167772160 4).2 184549376 = false := by decide

/-- C4 (amended): over well-formed stores — every stored subnet filed
under its first address octet with prefix length in `[8, 32]`, the
invariant `ban_subnet`/`unban_subnet` preserve when masks stay at least
8 — `is_ip_banned a` is true exactly when some currently banned subnet
contains `a`.  For prefix lengths below 8 the claim fails (see the
counterexample): addresses whose first octet differs from the stored
network address's first octet are never reported. -/
theorem is_ip_banned_iff_covered (b : BanState) (a network mask : Nat) :
    (wfBan b = true →
      (is_ip_banned b a = true ↔
        ∃ k stored, lookupA b.firstByte k = some stored ∧
          ∃ s ∈ stored, subnetContains s a = true)) ∧
    (wfBan b = true → 8 ≤ mask → mask ≤ 32 →
      wfBan (ban_subnet b network mask).2 = true) ∧
    (wfBan b = true → wfBan (unban_subnet b network mask).2 = true) ∧
    wfBan ⟨[], []⟩ = true := by
  refine ⟨?_, ?_, ?_, by decide⟩
  · intro hwf
    constructor
    · intro hbn
      unfold is_ip_banned at hbn
      cases hl : lookupA b.firstByte (firstOctet a) with
      | none => rw [hl] at hbn; simp at hbn
      | some stored =>
        rw [hl] at hbn
        rw [List.any_eq_true] at hbn
        obtain ⟨s, hs, hc⟩ := hbn
        exact ⟨firstOctet a, stored, hl, ⟨s, hs, hc⟩⟩
    · rintro ⟨k, stored, hl, s, hs, hc⟩
      obtain ⟨hoct, h8, h32⟩ := wfBan_entry b k stored s hwf hl hs
      have hk : firstOctet a = k := by
        rw [firstOctet_eq_of_contains s a h8 h32 hc, hoct]
      unfold is_ip_banned
      rw [hk, hl, List.any_eq_true]
      exact ⟨s, hs, hc⟩
  · intro hwf h8 h32
    unfold ban_subnet
    cases hl : lookupA b.firstByte (firstOctet network) with
    | some stored =>
      by_cases hmem : (⟨network, mask⟩ : Subnet) ∈ stored
      · simpa [hl, hmem] using hwf
      · simp only [hl, if_neg hmem]
        unfold wfBan at hwf ⊢
        apply all_updateA _ _ _ _ hwf
        intro v hv
        simp only [List.all_append, Bool.and_eq_true] at *
        refine ⟨hv, ?_⟩
        simp [h8, h32]
    | none =>
      simp only [hl]
      unfold wfBan at hwf ⊢
      simp only [List.all_cons, Bool.and_eq_true]
      refine ⟨?_, hwf⟩
      simp [h8, h32]
  · intro hwf
    unfold unban_subnet
    by_cases hm : mask < 8
    · by_cases hroot : (⟨network, mask⟩ : Subnet) ∈ b.root
      · simpa [hm, hroot, wfBan] using hwf
      · simpa [hm, hroot, wfBan] using hwf
    · simp only [hm, if_false]
      cases hl : lookupA b.firstByte (firstOctet network) with
      | none => simpa [hl] using hwf
      | some stored =>
        by_cases hmem : (⟨network, mask⟩ : Subnet) ∈ stored
        · simp only [hl, if_pos hmem]
          unfold wfBan at hwf ⊢
          apply all_of_sub (updateA b.firstByte (firstOctet network)
            (fun l => l.erase ⟨network, mask⟩)) _ _ ?_ ?_
          · apply all_updateA _ _ _ _ hwf
            intro v hv
            apply all_of_sub _ _ _ hv
            intro s hserase
            exact List.mem_of_mem_erase hserase
          · intro kv hkv
            exact List.mem_of_mem_filter hkv
        · simpa [hl, hmem] using hwf

/-- Witness for the covered-iff theorem: on the store holding
`1.0.0.0/9`, the address `1.0.0.1` is reported banned and a covering
banned subnet exists; banning `2.0.0.0/16` preserves well-formedness. -/
theorem is_ip_banned_iff_covered_w :
    (∃ k stored,
        lookupA (BanState.mk [(1, [⟨16777216, 9⟩])] []).firstByte k = some stored ∧
        ∃ s ∈ stored, subnetContains s 16777217 = true) ∧
    wfBan (ban_subnet ⟨[(1, [⟨16777216, 9⟩])], []⟩ 33554432 16).2 = true :=
  ⟨((is_ip_banned_iff_covered ⟨[(1, [⟨16777216, 9⟩])], []⟩ 16777217 33554432 16).1
      (by decide)).mp (by decide),
    (is_ip_banned_iff_covered ⟨[(1, [⟨16777216, 9⟩])], []⟩ 16777217 33554432 16).2.1
      (by decide) (by decide) (by decide)⟩

/-- A user registered in country `ZZ`, which the geo index does not
know. -/
def zUser : User := ⟨"bob", "pw", "Bob", "123", "ZZ", false, false, ""⟩

def zState : ServerState :=
  ⟨[("bob", zUser)], [("US", [⟨16777216, 8⟩])], ⟨[], []⟩⟩

def zToken : Token := keyAuthenticate serverKey ⟨"bob", "n1"⟩

/-- An edit request by `bob` from IP `1.2.3.4`, carrying a valid token. -/
def zEditReq : ParsedRequest :=
  ⟨some Handler.editUser, some ("1.2.3.4"), some zToken, none, none,
    some ⟨some ("Eve"), none, none⟩⟩

/-- C1: the geofence check fails for `bob` (country `ZZ` is unknown to
the geo index), yet `is_proper_country` — whose source discards the
`is_country_ip` result — reports success, and the dispatch step runs
the edit handler to completion (status accepted, name mutated) instead
of answering forbidden. -/
theorem geofence_check_discarded :
    is_country_ip zState.countryPrefixes ("ZZ") 16909060 = false ∧
    is_proper_country zState ("bob") 16909060 = some () ∧
    dispatch zState zEditReq =
      some (Status.accepted,
        ⟨[("bob", { zUser with name := "Eve" })],
          [("US", [⟨16777216, 8⟩])], ⟨[], []⟩⟩) := by decide

def annUser : User := ⟨"ann", "pw", "Ann", "1", "US", false, false, ""⟩

def annState : ServerState :=
  ⟨[("ann", annUser)], [("US", [⟨16777216, 8⟩])], ⟨[], []⟩⟩

/-- A `GET /user` request carrying a token whose MAC tag is wrong. -/
def annBadTokenReq : ParsedRequest :=
  ⟨some Handler.getUser, some ("1.2.3.4"), some ⟨⟨"ann", "n"⟩, 0⟩, none, none, none⟩

/-- A `GET /user` request carrying no token at all. -/
def annNoTokenReq : ParsedRequest :=
  ⟨some Handler.getUser, some ("1.2.3.4"), none, none, none, none⟩

/-- C5 counterexample: a request with an unverifiable token is answered
with bad request, not forbidden, so this authorization failure is
distinguishable from the others. -/
theorem invalid_token_distinguishable :
    dispatch annState annBadTokenReq = some (Status.badRequest, annState) ∧
    Status.badRequest ≠ Status.forbidden := by decide

/-- The route kinds that require a bearer token (every kind except
authenticate and register). -/
def tokenRequiring (h : Handler) : Bool :=
  match h with
  | Handler.auth => false
  | Handler.registerUser => false
  | _ => true

/-- The admin-only route kinds. -/
def adminKind (h : Handler) : Bool :=
  match h with
  | Handler.blacklistUser _ => true
  | Handler.unblacklistUser _ => true
  | Handler.blacklistSubnet _ _ => true
  | Handler.unblacklistSubnet _ _ => true
  | _ => false

theorem contains_of_get_user_login (st : ServerState) (t : Token) (login : String)
    (h : get_user_login st t = some login) : containsA st.users login = true := by
  unfold get_user_login at h
  cases hv : verifyToken serverKey t with
  | none => rw [hv] at h; simp at h
  | some claims =>
    rw [hv] at h
    by_cases hc : containsA st.users claims.login
    · simp only [hc, if_true] at h
      cases h
      exact hc
    · simp [hc] at h

theorem is_proper_country_of_contains (st : ServerState) (login : String) (ip : Nat)
    (h : containsA st.users login = true) :
    is_proper_country st login ip = some () := by
  unfold containsA at h
  unfold is_proper_country
  cases hl : lookupA st.users login with
  | none => rw [hl] at h; simp at h
  | some u => simp [hl]

/-- C5 (amended): a missing client-IP header, an unparsable client IP, a
banned client IP, a missing bearer token, an insufficient-privilege
admin call, and an edit of a banned account are all answered with the
same forbidden status; an invalid or unverifiable token, however, is
answered with bad request and is therefore distinguishable from the
other authorization failures. -/
theorem authorization_failure_statuses (st : ServerState) (r : ParsedRequest)
    (h : Handler) (ipStr : String) (ip : Nat) (t : Token) (login : String)
    (u : User) (e : EditUserRequest) :
    (r.handler = some h → r.ipHeader = none →
      dispatch st r = some (Status.forbidden, st)) ∧
    (r.handler = some h → r.ipHeader = some ipStr → parseIpv4 ipStr = none →
      dispatch st r = some (Status.forbidden, st)) ∧
    (r.handler = some h → r.ipHeader = some ipStr → parseIpv4 ipStr = some ip →
      is_ip_banned st.banned ip = true →
      dispatch st r = some (Status.forbidden, st)) ∧
    (tokenRequiring h = true → r.handler = some h → r.ipHeader = some ipStr →
      parseIpv4 ipStr = some ip → is_ip_banned st.banned ip = false →
      r.token = none → dispatch st r = some (Status.forbidden, st)) ∧
    (tokenRequiring h = true → r.handler = some h → r.ipHeader = some ipStr →
      parseIpv4 ipStr = some ip → is_ip_banned st.banned ip = false →
      r.token = some t → get_user_login st t = none →
      dispatch st r = some (Status.badRequest, st)) ∧
    (adminKind h = true → r.handler = some h → r.ipHeader = some ipStr →
      parseIpv4 ipStr = some ip → is_ip_banned st.banned ip = false →
      r.token = some t → get_user_login st t = some login →
      is_prop_admin_cred st login ip = false →
      dispatch st r = some (Status.forbidden, st)) ∧
    (r.handler = some Handler.editUser → r.ipHeader = some ipStr →
      parseIpv4 ipStr = some ip → is_ip_banned st.banned ip = false →
      r.token = some t → get_user_login st t = some login →
      r.editBody = some e → lookupA st.users login = some u →
      u.is_banned = true → dispatch st r = some (Status.forbidden, st)) := by
  refine ⟨?_, ?_, ?_, ?_, ?_, ?_, ?_⟩
  · intro h1 h2
    simp [dispatch, h1, h2]
  · intro h1 h2 h3
    simp [dispatch, h1, h2, h3]
  · intro h1 h2 h3 h4
    cases h <;> simp [dispatch, h1, h2, h3, h4]
  · intro htr h1 h2 h3 h4 h5
    cases h <;>
      first
        | (simp [dispatch, dispatchToken, h1, h2, h3, h4, h5]; done)
        | simp [tokenRequiring] at htr
  · intro htr h1 h2 h3 h4 h5 h6
    cases h <;>
      first
        | (simp [dispatch, dispatchToken, h1, h2, h3, h4, h5, h6]; done)
        | simp [tokenRequiring] at htr
  · intro hak h1 h2 h3 h4 h5 h6 h7
    have hipc : is_proper_country st login ip = some () :=
      is_proper_country_of_contains st login ip
        (contains_of_get_user_login st t login h6)
    cases h <;>
      first
        | (simp [dispatch, dispatchToken, dispatchHandler, h1, h2, h3, h4, h5, h6,
            h7, hipc]; done)
        | simp [adminKind] at hak
  · intro h1 h2 h3 h4 h5 h6 h7 h8 h9
    have hipc : is_proper_country st login ip = some () :=
      is_proper_country_of_contains st login ip
        (contains_of_get_user_login st t login h6)
    simp [dispatch, dispatchToken, dispatchHandler, edit_user, h1, h2, h3, h4,
      h5, h6, h7, h8, h9, hipc]

/-- Witness: on a concrete state, a missing token yields forbidden and a
wrong-MAC token yields bad request, via the statuses theorem. -/
theorem authorization_failure_statuses_w :
    dispatch annState annNoTokenReq = some (Status.forbidden, annState) ∧
    dispatch annState annBadTokenReq = some (Status.badRequest, annState) :=
  ⟨(authorization_failure_statuses annState annNoTokenReq Handler.getUser
      "1.2.3.4" 16909060 ⟨⟨"ann", "n"⟩, 0⟩ "x" annUser ⟨none, none, none⟩).2.2.2.1
      (by decide) rfl rfl (by decide) (by decide) rfl,
    (authorization_failure_statuses annState annBadTokenReq Handler.getUser
      "1.2.3.4" 16909060 ⟨⟨"ann", "n"⟩, 0⟩ "x" annUser ⟨none, none, none⟩).2.2.2.2.1
      (by decide) rfl rfl (by decide) (by decide) rfl (by decide)⟩

/-- C7: a token issued by a successful `authenticate` call verifies back
via `get_user_login` to the same login, and any token whose MAC tag
does not match the recomputed MAC fails verification. -/
theorem token_roundtrip (st : ServerState) (login password nonce : String)
    (ip : Nat) (u : User) :
    (lookupA st.users login = some u → u.login = login →
      ∀ tok st2, authenticate st login password nonce ip = (some tok, st2) →
        get_user_login st2 tok = some login) ∧
    (∀ t2 : Token, t2.sig ≠ macSign serverKey t2.info →
      get_user_login st t2 = none) := by
  constructor
  · intro hl he tok st2 hres
    unfold authenticate at hres
    simp only [hl] at hres
    by_cases hpw : u.password ≠ password
    · simp [hpw] at hres
    · rw [if_neg hpw] at hres
      by_cases hban : u.is_banned = true
      · rw [if_pos hban] at hres
        simp at hres
      · rw [if_neg hban] at hres
        by_cases hgeo : is_country_ip st.countryPrefixes u.country ip = true
        · rw [if_pos hgeo] at hres
          simp only [Prod.mk.injEq, Option.some.injEq] at hres
          obtain ⟨htok, hst⟩ := hres
          subst htok
          subst hst
          unfold get_user_login
          have hver : verifyToken serverKey
              (keyAuthenticate serverKey ⟨u.login, nonce⟩) =
              some ⟨u.login, nonce⟩ := by
            simp [verifyToken, keyAuthenticate]
          rw [hver]
          have hcont : containsA
              (updateA st.users login (fun w => { w with nonce := nonce }))
              login = true := by
            unfold containsA
            rw [lookupA_updateA_self, hl]
            rfl
          simp [hcont, he]
        · rw [if_neg hgeo] at hres
          simp at hres
  · intro t2 hs
    unfold get_user_login verifyToken
    simp [hs]

def carolUser : User := ⟨"carol", "pw", "C", "1", "US", false, false, ""⟩

def carolState : ServerState :=
  ⟨[("carol", carolUser)], [("US", [⟨16777216, 8⟩])], ⟨[], []⟩⟩

/-- Witness: carol authenticates from `1.2.3.4` (inside `1.0.0.0/8`),
the issued token verifies back to carol; a zero-tag token fails. -/
theorem token_roundtrip_w :
    get_user_login (authenticate carolState ("carol") "pw" "n2" 16909060).2
      (keyAuthenticate serverKey ⟨"carol", "n2"⟩) = some ("carol") ∧
    get_user_login carolState ⟨⟨"carol", "n2"⟩, 0⟩ = none :=
  ⟨(token_roundtrip carolState ("carol") "pw" "n2" 16909060 carolUser).1 (by decide)
      rfl (keyAuthenticate serverKey ⟨"carol", "n2"⟩)
      (authenticate carolState ("carol") "pw" "n2" 16909060).2 (by decide),
    (token_roundtrip carolState ("carol") "pw" "n2" 16909060 carolUser).2
      ⟨⟨"carol", "n2"⟩, 0⟩ (by decide)⟩

/-- C8: when the login exists, the password matches and the account is
not banned, `authenticate` stamps the supplied nonce onto the stored
record (other records untouched) even when the geofence then fails and
the call returns no token; when the login is unknown, the password
mismatches or the account is banned, the call returns no token and the
whole state is unchanged. -/
theorem authenticate_nonce_effect (st : ServerState) (login password nonce : String)
    (ip : Nat) (u : User) :
    (lookupA st.users login = some u → u.password = password →
      u.is_banned = false →
      lookupA (authenticate st login password nonce ip).2.users login =
        some { u with nonce := nonce } ∧
      (∀ k, k ≠ login →
        lookupA (authenticate st login password nonce ip).2.users k =
          lookupA st.users k) ∧
      (is_country_ip st.countryPrefixes u.country ip = false →
        (authenticate st login password nonce ip).1 = none)) ∧
    (lookupA st.users login = none →
      authenticate st login password nonce ip = (none, st)) ∧
    (lookupA st.users login = some u → u.password ≠ password →
      authenticate st login password nonce ip = (none, st)) ∧
    (lookupA st.users login = some u → u.is_banned = true →
      authenticate st login password nonce ip = (none, st)) := by
  refine ⟨?_, ?_, ?_, ?_⟩
  · intro hl hpw hban
    have hst : (authenticate st login password nonce ip).2 =
        { st with users := updateA st.users login (fun w => { w with nonce := nonce }) } ∧
        (is_country_ip st.countryPrefixes u.country ip = false →
          (authenticate st login password nonce ip).1 = none) := by
      unfold authenticate
      simp only [hl]
      rw [if_neg (fun hcon => hcon hpw), if_neg (by simp [hban])]
      by_cases hgeo : is_country_ip st.countryPrefixes u.country ip = true
      · rw [if_pos hgeo]
        exact ⟨rfl, fun hfalse => absurd hgeo (by simp [hfalse])⟩
      · rw [if_neg hgeo]
        exact ⟨rfl, fun _ => rfl⟩
    refine ⟨?_, ?_, hst.2⟩
    · rw [hst.1]
      simp only
      rw [lookupA_updateA_self, hl]
      rfl
    · intro k hk
      rw [hst.1]
      simp only
      exact lookupA_updateA_ne _ _ _ _ hk
  · intro hl
    simp [authenticate, hl]
  · intro hl hpw
    simp [authenticate, hl, hpw]
  · intro hl hban
    unfold authenticate
    simp only [hl]
    by_cases hpw : u.password ≠ password
    · rw [if_pos hpw]
    · rw [if_neg hpw, if_pos hban]

def daveUser : User := ⟨"dave", "pw", "D", "1", "ZZ", false, false, ""⟩

def daveState : ServerState :=
  ⟨[("dave", daveUser)], [("US", [⟨16777216, 8⟩])], ⟨[], []⟩⟩

/-- Witness: dave's country `ZZ` is unknown to the geo index, so his
authentication returns no token, yet the nonce lands on his record; an
unknown login leaves the state untouched. -/
theorem authenticate_nonce_effect_w :
    lookupA (authenticate daveState ("dave") "pw" "n9" 16909060).2.users ("dave") =
      some { daveUser with nonce := "n9" } ∧
    (authenticate daveState ("dave") "pw" "n9" 16909060).1 = none ∧
    authenticate daveState ("zoe") "pw" "n9" 16909060 = (none, daveState) :=
  ⟨((authenticate_nonce_effect daveState ("dave") "pw" "n9" 16909060 daveUser).1
      (by decide) (by decide) (by decide)).1,
    ((authenticate_nonce_effect daveState ("dave") "pw" "n9" 16909060 daveUser).1
      (by decide) (by decide) (by decide)).2.2 (by decide),
    (authenticate_nonce_effect daveState ("zoe") "pw" "n9" 16909060 daveUser).2.1
      (by decide)⟩

/-- C9: an edit never raises the admin flag of a record whose flag is
false (whatever login is edited and whatever arguments are supplied),
and registration always creates a record with the flag false. -/
theorem admin_flag_never_raised (users : List (String × User)) (login login2 : String)
    (name password phone : Option String) (is_admin : Option Bool)
    (country : Option String) (login3 password3 name3 phone3 country3 : String) :
    ((lookupA users login2).map (fun w => w.is_admin) = some false →
      ∀ res users2,
        edit_user users login name password phone is_admin country =
          some (res, users2) →
        (lookupA users2 login2).map (fun w => w.is_admin) = some false) ∧
    lookupA (create_user users login3 password3 name3 phone3 country3) login3 =
      some ⟨login3, password3, name3, phone3, country3, false, false, ""⟩ := by
  constructor
  · intro hadm res users2 hres
    unfold edit_user at hres
    cases hl : lookupA users login with
    | none => simp [hl] at hres
    | some w =>
      simp only [hl] at hres
      by_cases hban : w.is_banned = true
      · rw [if_pos hban] at hres
        simp only [Option.some.injEq, Prod.mk.injEq] at hres
        obtain ⟨_, h2⟩ := hres
        subst h2
        exact hadm
      · rw [if_neg hban] at hres
        simp only [Option.some.injEq, Prod.mk.injEq] at hres
        obtain ⟨_, h2⟩ := hres
        subst h2
        by_cases hkey : login2 = login
        · subst hkey
          rw [hl] at hadm
          simp only [Option.map_some', Option.some.injEq] at hadm
          rw [lookupA_updateA_self, hl]
          simp only [Option.map_some', Option.some.injEq]
          cases is_admin <;> cases country <;> cases password <;>
            cases name <;> cases phone <;> simp [hadm]
        · rw [lookupA_updateA_ne _ _ _ _ hkey]
          exact hadm
  · unfold create_user insertA
    by_cases hc : containsA users login3 = true
    · rw [if_pos hc]
      rw [lookupA_updateA_self]
      unfold containsA at hc
      cases hl : lookupA users login3 with
      | none => rw [hl] at hc; simp at hc
      | some w => simp
    · rw [if_neg hc]
      simp [lookupA]

def eveUser : User := ⟨"eve", "pw", "Eve", "111", "US", false, false, "n0"⟩

/-- Witness: attempting to set the admin flag on non-admin eve leaves it
false, and a freshly created user starts non-admin. -/
theorem admin_flag_never_raised_w :
    (lookupA [("eve", eveUser)] "eve").map (fun w => w.is_admin) = some false ∧
    lookupA (create_user [] "new" "p" "N" "1" "US") "new" =
      some ⟨"new", "p", "N", "1", "US", false, false, ""⟩ :=
  ⟨(admin_flag_never_raised [("eve", eveUser)] "eve" "eve" none none none
      (some true) none ("new") "p" "N" "1" "US").1 (by decide) (some ())
      [("eve", eveUser)] (by decide),
    (admin_flag_never_raised [("eve", eveUser)] "eve" "eve" none none none
      (some true) none ("new") "p" "N" "1" "US").2⟩

/-- C10: on an existing non-banned record, `edit_user` succeeds and the
stored record afterwards carries exactly the supplied fields, keeps
every absent field, and always keeps the login, ban flag and nonce (the
admin flag moves only if it was already true); every other key is
untouched; on a banned record the edit is rejected and the user list is
returned unchanged. -/
theorem edit_user_frame (users : List (String × User)) (login : String) (u : User)
    (name password phone : Option String) (is_admin : Option Bool)
    (country : Option String) :
    (lookupA users login = some u → u.is_banned = false →
      ∃ users2,
        edit_user users login name password phone is_admin country =
          some (some (), users2) ∧
        lookupA users2 login = some
          { login := u.login, password := password.getD u.password,
            name := name.getD u.name, phone := phone.getD u.phone,
            country := country.getD u.country,
            is_admin := if u.is_admin then is_admin.getD u.is_admin else u.is_admin,
            is_banned := u.is_banned, nonce := u.nonce } ∧
        ∀ k, k ≠ login → lookupA users2 k = lookupA users k) ∧
    (lookupA users login = some u → u.is_banned = true →
      edit_user users login name password phone is_admin country =
        some (none, users)) := by
  constructor
  · intro hl hban
    unfold edit_user
    simp only [hl]
    rw [if_neg (by simp [hban])]
    refine ⟨_, rfl, ?_, ?_⟩
    · rw [lookupA_updateA_self, hl]
      simp only [Option.map_some', Option.some.injEq]
      obtain ⟨ul, up, un, uph, uc, ua, ub, uno⟩ := u
      simp only at hban
      subst hban
      cases is_admin <;> cases country <;> cases password <;>
        cases name <;> cases phone <;> cases ua <;> simp [Option.getD]
    · intro k hk
      exact lookupA_updateA_ne _ _ _ _ hk
  · intro hl hban
    unfold edit_user
    simp only [hl]
    rw [if_pos hban]

def malUser : User := ⟨"mal", "pw", "M", "1", "US", false, true, ""⟩

/-- Witness: editing eve's phone changes only the phone; editing banned
mal is rejected with the list unchanged. -/
theorem edit_user_frame_w :
    (∃ users2,
        edit_user [("eve", eveUser)] "eve" none none (some ("222")) none none =
          some (some (), users2) ∧
        lookupA users2 ("eve") =
          some ⟨"eve", "pw", "Eve", "222", "US", false, false, "n0"⟩ ∧
        ∀ k, k ≠ "eve" → lookupA users2 k = lookupA [("eve", eveUser)] k) ∧
    edit_user [("mal", malUser)] "mal" (some ("X")) none none none none =
      some (none, [("mal", malUser)]) :=
  ⟨(edit_user_frame [("eve", eveUser)] "eve" eveUser none none (some ("222"))
      none none).1 (by decide) (by decide),
    (edit_user_frame [("mal", malUser)] "mal" malUser (some ("X")) none none
      none none).2 (by decide) (by decide)⟩
